import Mathlib

/-!
# Verification of the Streaming Chat Orchestration Engine

A shallow embedding, in Lean 4, of the streaming-chat subsystem of the
`helpful_assistant` backend, together with proofs and refutations of the
specification's claims about it.

The embedded source files are:

* `backend/app/services/ai_service_sqlite.py` — the upstream adapter
  (`_build_payload`, the chunk parser inside `chat_stream`);
* `backend/app/services/background_chat_service.py` — the job manager
  (`start_background_chat`, `stop_session_task`, `_background_chat_worker`);
* `backend/app/api/chat_sqlite.py` — the WebSocket session gateway
  (`websocket_chat`).

Strings from the store are modelled as `List Char`; Python `None` as
`Option.none`; the SQLite rows as Lean structures.  Each definition keeps
the name of the Python function it embeds where Lean allows it.
-/

set_option autoImplicit false

namespace StreamingChat

/-! ## Python truthiness helpers

Python conditions such as `if thinking:` and `if max_tokens_override:`
treat `None`, `""` and `0` as false.  These helpers reproduce that.
-/

/-- Truthiness of an optional string (`None` and `""` are falsy). -/
def pyTruthyStr : Option (List Char) → Bool
  | none => false
  | some t => !t.isEmpty

/-- Truthiness of an optional integer (`None` and `0` are falsy). -/
def pyTruthyNat : Option Nat → Bool
  | none => false
  | some n => n != 0

/-! ## Substring search

`re.search` / `re.sub` with the fixed pattern `<think>(.*?)</think>`
(`re.DOTALL`) reduce to plain substring search: the leftmost match starts
at the first occurrence of `<think>` and its group runs to the first
occurrence of `</think>` after it.  `splitFirst pat s` returns the text
before the first occurrence of `pat` in `s` and the text after it.
-/

/-- Split `s` at the first occurrence of `pat`: `some (pre, post)` with
`s = pre ++ pat ++ post`, or `none` when `pat` does not occur in `s`. -/
def splitFirst (pat : List Char) : List Char → Option (List Char × List Char)
  | [] => if pat.isEmpty then some ([], []) else none
  | a :: rest =>
    if pat.isPrefixOf (a :: rest) then some ([], (a :: rest).drop pat.length)
    else (splitFirst pat rest).map (fun pq => (a :: pq.1, pq.2))

theorem splitFirst_sound {pat s pre post : List Char}
    (h : splitFirst pat s = some (pre, post)) : s = pre ++ pat ++ post := by
  induction s generalizing pre post with
  | nil =>
    cases pat with
    | nil =>
      simp only [splitFirst, List.isEmpty_nil, if_true, Option.some.injEq,
        Prod.mk.injEq] at h
      obtain ⟨h1, h2⟩ := h
      simp [← h1, ← h2]
    | cons b bs => simp [splitFirst] at h
  | cons a rest ih =>
    simp only [splitFirst] at h
    by_cases hp : pat.isPrefixOf (a :: rest)
    · rw [if_pos hp] at h
      simp only [Option.some.injEq, Prod.mk.injEq] at h
      obtain ⟨h1, h2⟩ := h
      subst h1; subst h2
      obtain ⟨t, ht⟩ := List.isPrefixOf_iff_prefix.mp hp
      conv_lhs => rw [← ht]
      simp [← ht, List.drop_left]
    · rw [if_neg hp] at h
      cases hsf : splitFirst pat rest with
      | none => simp [hsf] at h
      | some pq =>
        obtain ⟨p1, p2⟩ := pq
        simp only [hsf, Option.map_some', Option.some.injEq, Prod.mk.injEq] at h
        obtain ⟨h1, h2⟩ := h
        subst h1; subst h2
        have hr := ih hsf
        simp [hr]

/-- The remainder returned by `splitFirst` is shorter than the input when
the pattern is nonempty. -/
theorem splitFirst_post_length {pat s pre post : List Char}
    (h : splitFirst pat s = some (pre, post)) (hp : pat ≠ []) :
    post.length < s.length := by
  have hs := splitFirst_sound h
  have : 1 ≤ pat.length := List.length_pos.mpr hp
  simp [hs, List.length_append]
  omega

/-! ## The inline `<think>` tag parser (`chat_stream`, lines 454–498)

```python
thinking_match = re.search(r'<think>(.*?)</think>', content, re.DOTALL)
if thinking_match:
    thinking_text = thinking_match.group(1)
    chunk_thinking = thinking_text
    content = re.sub(r'<think>.*?</think>', '', content, flags=re.DOTALL)
```
-/

/-- The opening tag `<think>`. -/
def openTag : List Char := "<think>".data

/-- The closing tag `</think>`. -/
def closeTag : List Char := "</think>".data

/-- Leftmost match of `<think>(.*?)</think>` in `s`:
`some (pre, inner, post)` where `pre` precedes the first `<think>`,
`inner` is the non-greedy group and `post` follows the first `</think>`
after that opening tag. -/
def extractThink (s : List Char) : Option (List Char × List Char × List Char) :=
  match splitFirst openTag s with
  | none => none
  | some (pre, rest) =>
    match splitFirst closeTag rest with
    | none => none
    | some (inner, post) => some (pre, inner, post)

theorem extractThink_sound {s pre inner post : List Char}
    (h : extractThink s = some (pre, inner, post)) :
    s = pre ++ openTag ++ inner ++ closeTag ++ post := by
  unfold extractThink at h
  cases h1 : splitFirst openTag s with
  | none => simp [h1] at h
  | some pr =>
    obtain ⟨p, r⟩ := pr
    simp only [h1] at h
    cases h2 : splitFirst closeTag r with
    | none => simp [h2] at h
    | some ip =>
      obtain ⟨i, q⟩ := ip
      simp only [h2, Option.some.injEq, Prod.mk.injEq] at h
      obtain ⟨hp, hi, hq⟩ := h
      subst hp; subst hi; subst hq
      have e1 := splitFirst_sound h1
      have e2 := splitFirst_sound h2
      simp [e1, e2]

theorem extractThink_post_length {s pre inner post : List Char}
    (h : extractThink s = some (pre, inner, post)) : post.length < s.length := by
  unfold extractThink at h
  cases h1 : splitFirst openTag s with
  | none => simp [h1] at h
  | some pr =>
    obtain ⟨p, r⟩ := pr
    simp only [h1] at h
    cases h2 : splitFirst closeTag r with
    | none => simp [h2] at h
    | some ip =>
      obtain ⟨i, q⟩ := ip
      simp only [h2, Option.some.injEq, Prod.mk.injEq] at h
      obtain ⟨hp, hi, hq⟩ := h
      subst hp; subst hi; subst hq
      have l1 := splitFirst_post_length h1 (by simp [openTag])
      have l2 := splitFirst_post_length h2 (by simp [closeTag])
      omega

/-- `re.sub(r'<think>.*?</think>', '', content)`: remove every
(non-overlapping, leftmost-first) tagged span.  `re.sub` scans left to
right and continues after each removed match, so the result is the text
before the match followed by the substitution applied to the text after
it.  The fuel argument bounds the number of matches; `s.length` always
suffices because each match consumes at least one character. -/
def removeThinkFuel : Nat → List Char → List Char
  | 0, s => s
  | fuel + 1, s =>
    match extractThink s with
    | none => s
    | some (pre, _, post) => pre ++ removeThinkFuel fuel post

/-- All-occurrence removal of `<think>…</think>` spans. -/
def removeThink (s : List Char) : List Char := removeThinkFuel s.length s

theorem removeThinkFuel_of_none {s : List Char} (h : extractThink s = none)
    (fuel : Nat) : removeThinkFuel fuel s = s := by
  cases fuel with
  | zero => rfl
  | succ n => simp [removeThinkFuel, h]

/-- One-step unfolding of `removeThink` when a tagged span is present. -/
theorem removeThink_step {s pre inner post : List Char}
    (h : extractThink s = some (pre, inner, post)) :
    removeThink s = pre ++ removeThinkFuel (s.length - 1) post := by
  have hlen := extractThink_post_length h
  unfold removeThink
  cases hs : s.length with
  | zero => omega
  | succ n =>
    simp only [removeThinkFuel, h, hs, Nat.succ_sub_one]

/-! ## Delta emission (`chat_stream`, lines 468–494)

```python
content = delta.get("content", "")
reasoning_content = delta.get("reasoning_content", "")
chunk_thinking = None
if reasoning_content:
    chunk_thinking = reasoning_content
if content:
    thinking_match = re.search(r'<think>(.*?)</think>', content, re.DOTALL)
    if thinking_match:
        chunk_thinking = thinking_match.group(1)
        content = re.sub(r'<think>.*?</think>', '', content, flags=re.DOTALL)
if content or chunk_thinking:
    yield {"type": "content", "content": content or "", "thinking": chunk_thinking}
```

`processDelta` returns the yielded event's `(content, thinking)` pair, or
`none` when the chunk is suppressed.
-/

/-- Processing of one parsed payload delta by `chat_stream`. -/
def processDelta (content reasoning : List Char) :
    Option (List Char × Option (List Char)) :=
  let chunkThinking : Option (List Char) :=
    if reasoning.isEmpty then none else some reasoning
  let step :=
    if content.isEmpty then (content, chunkThinking)
    else
      match extractThink content with
      | some (_, inner, _) => (removeThink content, some inner)
      | none => (content, chunkThinking)
  if !step.1.isEmpty || pyTruthyStr step.2 then some step else none

/-! ## Request payload construction (`_build_payload`, lines 23–55)

The payload dictionary is modelled by a structure whose optional fields
are `some` exactly when the corresponding key is present in the Python
dict.  Sampling parameters carry opaque values (`Int`); `max_tokens`
carries the actual number because the 8192 cap is arithmetic.
-/

/-- Provider configuration dict (`provider.config`): a key absent from
the dict is `none`. -/
structure ProviderConfig where
  model : String
  temperature : Option Int := none
  max_tokens : Option Nat := none
  top_p : Option Int := none
  frequency_penalty : Option Int := none
  presence_penalty : Option Int := none
deriving Repr, DecidableEq

/-- The payload dict produced by `_build_payload`. -/
structure Payload where
  model : String
  messages : List (String × String)
  stream : Bool
  temperature : Option Int := none
  max_tokens : Option Nat := none
  top_p : Option Int := none
  frequency_penalty : Option Int := none
  presence_penalty : Option Int := none
deriving Repr, DecidableEq

/-- `"deepseek-reasoner" in model` — Python substring containment. -/
def isDeepseekReasoner (model : String) : Bool :=
  (splitFirst "deepseek-reasoner".data model.data).isSome

/-- `AIServiceSQLite._build_payload`.  `max_tokens_override=None` maps to
`none`; Python's `if max_tokens_override:` is the truthiness test
`pyTruthyNat` (`None` and `0` are falsy), and `max_tokens_override or
config["max_tokens"]` picks the override when truthy. -/
def build_payload (config : ProviderConfig) (messages : List (String × String))
    (stream : Bool) (max_tokens_override : Option Nat) : Payload :=
  if isDeepseekReasoner config.model then
    { model := config.model, messages := messages, stream := stream,
      max_tokens :=
        if pyTruthyNat max_tokens_override then
          some (min (max_tokens_override.getD 0) 8192)
        else
          match config.max_tokens with
          | some v => some (min v 8192)
          | none => none }
  else
    { model := config.model, messages := messages, stream := stream,
      temperature := config.temperature,
      max_tokens :=
        if config.max_tokens.isSome || pyTruthyNat max_tokens_override then
          some (min
            (if pyTruthyNat max_tokens_override then max_tokens_override.getD 0
             else config.max_tokens.getD 0) 8192)
        else none,
      top_p := config.top_p,
      frequency_penalty := config.frequency_penalty,
      presence_penalty := config.presence_penalty }

example : processDelta "A<think>B</think>C".data [] =
    some ("AC".data, some "B".data) := by decide
example : processDelta "hello".data [] = some ("hello".data, none) := by decide
example : processDelta "<think></think>".data [] = none := by decide
example : processDelta [] "why".data = some ([], some "why".data) := by decide
example :
    (build_payload { model := "deepseek-reasoner" } [] true none).max_tokens
      = none := by decide
example :
    (build_payload { model := "deepseek-reasoner", max_tokens := some 9000 }
      [] true none).max_tokens = some 8192 := by decide

/-! ## The background worker (`_background_chat_worker`, lines 147–267)

The worker consumes the event stream produced by `chat_stream`.  A
`WorkerChunk` is one iteration of the `async for` loop:

* `content c t ok1 ok2` — a `{"type": "content"}` chunk with content
  delta `c` and thinking delta `t` (`t = []` models `thinking: None`);
  `ok1` tells whether the per-delta `db.commit()` succeeds and, when it
  fails, `ok2` whether the retry after `db.rollback(); db.refresh(...)`
  succeeds (lines 192–210);
* `errorChunk` — a chunk with an `"error"` key (lines 172–182);
* `doneChunk` — a `{"type": "done"}` chunk (lines 219–237);
* `cancelSignal` — delivery of `asyncio.CancelledError` / a positive
  `cancelled()` check before the chunk is processed (164–170, 239–246);
* `exnSignal` — any other exception raised by the stream (248–260).

`WorkerState` carries the persisted assistant-message row, the owning
session row, the in-memory accumulators and, for the proofs, the history
of content values committed to the store and the broadcast event types.
-/

inductive WorkerChunk where
  | content (c t : List Char) (ok1 ok2 : Bool)
  | errorChunk
  | doneChunk
  | cancelSignal
  | exnSignal
deriving Repr, DecidableEq

structure WorkerState where
  /-- Persisted `assistant_msg.content`. -/
  pContent : List Char
  /-- Persisted `assistant_msg.thinking` (`none` = SQL `NULL`). -/
  pThinking : Option (List Char)
  /-- Persisted `assistant_msg.streaming_status`. -/
  pStatus : String
  /-- Whether the owning `ChatSession` row exists (line 226 query). -/
  sessionExists : Bool
  /-- `session.message_count`. -/
  messageCount : Nat
  /-- `session.updated_at` (modelled as a tick). -/
  updatedAt : Nat
  /-- In-memory `assistant_content` accumulator. -/
  acc : List Char
  /-- In-memory `assistant_thinking` accumulator. -/
  accT : List Char
  /-- Every value of `assistant_msg.content` committed so far, oldest
  first (the gateway's placeholder commit contributes the initial `[]`). -/
  hist : List (List Char)
  /-- Event types broadcast so far via `broadcast_to_session`. -/
  broadcasts : List String
deriving Repr, DecidableEq

attribute [ext] WorkerState

/-- Worker state right after the gateway committed the placeholder
(`content=""`, `thinking=""`, status `streaming`). -/
def initWorker (sessionExists : Bool) (messageCount updatedAt : Nat) :
    WorkerState :=
  { pContent := [], pThinking := some [], pStatus := "streaming",
    sessionExists := sessionExists, messageCount := messageCount,
    updatedAt := updatedAt, acc := [], accT := [],
    hist := [[]], broadcasts := [] }

/-- The terminal `thinking` value: `assistant_thinking if assistant_thinking
else None` (lines 168, 222, 244, 253). -/
def finalThinking (accT : List Char) : Option (List Char) :=
  if accT.isEmpty then none else some accT

/-- One iteration of the worker loop.  Returns the successor state and
`true` when the loop terminates (a `break`, `return` or re-raise). -/
def workerStep (now : Nat) (s : WorkerState) : WorkerChunk → WorkerState × Bool
  | .content c t ok1 ok2 =>
    let acc' := s.acc ++ c
    let accT' := if t.isEmpty then s.accT else s.accT ++ t
    let s' := { s with acc := acc', accT := accT' }
    let commit := { s' with
      pContent := acc',
      pThinking := if accT'.isEmpty then s'.pThinking else some accT',
      hist := s'.hist ++ [acc'] }
    let s'' :=
      if ok1 then commit
      else if ok2 then commit
      else s'
    ({ s'' with broadcasts := s''.broadcasts ++ ["content"] }, false)
  | .errorChunk =>
    ({ s with pStatus := "interrupted",
              hist := s.hist ++ [s.pContent],
              broadcasts := s.broadcasts ++ ["error"] }, true)
  | .doneChunk =>
    let s' := { s with
      pContent := s.acc,
      pThinking := finalThinking s.accT,
      pStatus := "completed",
      messageCount := if s.sessionExists then s.messageCount + 2
                      else s.messageCount,
      updatedAt := if s.sessionExists then now else s.updatedAt,
      hist := s.hist ++ [s.acc] }
    ({ s' with broadcasts := s'.broadcasts ++ ["done"] }, true)
  | .cancelSignal =>
    ({ s with pContent := s.acc,
              pThinking := finalThinking s.accT,
              pStatus := "interrupted",
              hist := s.hist ++ [s.acc] }, true)
  | .exnSignal =>
    ({ s with pContent := s.acc,
              pThinking := finalThinking s.accT,
              pStatus := "interrupted",
              hist := s.hist ++ [s.acc],
              broadcasts := s.broadcasts ++ ["error"] }, true)

/-- Run the worker over a chunk list; returns the final state and the
chunks left unconsumed after a terminating step. -/
def runWorker (now : Nat) : WorkerState → List WorkerChunk →
    WorkerState × List WorkerChunk
  | s, [] => (s, [])
  | s, ch :: rest =>
    let (s', halt) := workerStep now s ch
    if halt then (s', rest) else runWorker now s' rest

/-! ## System state: store rows, ownership map, jobs

`SysState` is the observable state shared by the session gateway
(`websocket_chat`), the job manager (`BackgroundChatService`) and the
store: the persisted `chat_messages` rows (status field only — content is
covered by the worker model above), the in-memory `running_tasks` map,
the set of spawned worker tasks with their cancellation flags, and the
events broadcast so far.
-/

/-- A `chat_messages` row (the fields the orchestration touches). -/
structure ChatMessageRow where
  mid : Nat
  sid : Nat
  role : String
  streaming_status : String
deriving Repr, DecidableEq

/-- An `asyncio.Task` spawned by `start_background_chat`: its id, the
conversation and assistant message it serves, its cancellation flag
(`task.cancel()` was called) and whether its coroutine has finished. -/
structure TaskRec where
  jid : Nat
  sid : Nat
  msgId : Nat
  cancelled : Bool
  finished : Bool
deriving Repr, DecidableEq

structure SysState where
  msgs : List ChatMessageRow
  /-- `self.running_tasks : Dict[int, asyncio.Task]`, as an association
  list `session_id ↦ task id`. -/
  running_tasks : List (Nat × Nat)
  tasks : List TaskRec
  broadcasts : List (Nat × String)
deriving Repr, DecidableEq

/-- `session_id in running_tasks` / `running_tasks[session_id]`. -/
def lookupTask (ts : List (Nat × Nat)) (sid : Nat) : Option Nat :=
  (ts.find? (fun p => p.1 == sid)).map (·.2)

/-- `running_tasks[session_id] = task` (dict assignment overwrites). -/
def setTask (ts : List (Nat × Nat)) (sid jid : Nat) : List (Nat × Nat) :=
  ts.filter (fun p => p.1 != sid) ++ [(sid, jid)]

/-- `del running_tasks[session_id]`, guarded by the membership test the
code always performs first. -/
def removeTask (ts : List (Nat × Nat)) (sid : Nat) : List (Nat × Nat) :=
  ts.filter (fun p => p.1 != sid)

/-- `task.cancel()` on task `jid`. -/
def cancelTask (ts : List TaskRec) (jid : Nat) : List TaskRec :=
  ts.map (fun t => if t.jid == jid then { t with cancelled := true } else t)

/-- Mark task `jid` finished (its coroutine returned or re-raised). -/
def finishTask (ts : List TaskRec) (jid : Nat) : List TaskRec :=
  ts.map (fun t => if t.jid == jid then { t with finished := true } else t)

/-- `db.query(ChatMessage).filter(session_id == sid,
streaming_status == "streaming").first()`. -/
def findStreaming (msgs : List ChatMessageRow) (sid : Nat) :
    Option ChatMessageRow :=
  msgs.find? (fun m => m.sid == sid && m.streaming_status == "streaming")

/-- Set `streaming_status = "interrupted"` on row `mid` and commit. -/
def markInterrupted (msgs : List ChatMessageRow) (mid : Nat) :
    List ChatMessageRow :=
  msgs.map (fun m =>
    if m.mid == mid then { m with streaming_status := "interrupted" } else m)

/-- Number of rows of conversation `sid` in `streaming` status. -/
def countStreaming (s : SysState) (sid : Nat) : Nat :=
  (s.msgs.filter
    (fun m => m.sid == sid && m.streaming_status == "streaming")).length

/-- Status of row `mid`, when present. -/
def statusOf (s : SysState) (mid : Nat) : Option String :=
  (s.msgs.find? (fun m => m.mid == mid)).map (·.streaming_status)

/-! ## Job manager operations (`background_chat_service.py`) -/

/-- `start_background_chat` (lines 50–64): cancel any existing task for
the session, spawn the worker task, store it in `running_tasks`. -/
def start_background_chat (s : SysState) (sid jid mid : Nat) : SysState :=
  let tasks' :=
    match lookupTask s.running_tasks sid with
    | some old => cancelTask s.tasks old
    | none => s.tasks
  { s with
    tasks := tasks' ++ [{ jid := jid, sid := sid, msgId := mid,
                          cancelled := false, finished := false }],
    running_tasks := setTask s.running_tasks sid jid }

/-- The worker's `asyncio.CancelledError` handler plus its `finally`
block (lines 239–246, 262–267): mark the assistant message `interrupted`,
commit, then `if session_id in running_tasks: del running_tasks[session_id]`
— the deletion does not check that the stored task is this worker's own. -/
def workerCancelCleanup (s : SysState) (sid jid mid : Nat) : SysState :=
  { s with
    msgs := markInterrupted s.msgs mid,
    running_tasks := removeTask s.running_tasks sid,
    tasks := finishTask s.tasks jid }

/-- `stop_session_task` (lines 66–145).  Returns the updated state and
the boolean result.  Database failures are not modelled (the store is
assumed available). -/
def stop_session_task (s : SysState) (sid : Nat) : SysState × Bool :=
  match lookupTask s.running_tasks sid with
  | some jid =>
    let msgs' :=
      match findStreaming s.msgs sid with
      | some m => markInterrupted s.msgs m.mid
      | none => s.msgs
    ({ s with
       msgs := msgs',
       tasks := cancelTask s.tasks jid,
       broadcasts := s.broadcasts ++ [(sid, "stopped")],
       running_tasks := removeTask s.running_tasks sid }, true)
  | none =>
    match findStreaming s.msgs sid with
    | some m =>
      ({ s with
         msgs := markInterrupted s.msgs m.mid,
         broadcasts := s.broadcasts ++ [(sid, "stopped")] }, true)
    | none => (s, false)

/-! ## The session gateway (`websocket_chat`, lines 316–403)

The inbound-message handler persists the user message, commits the
assistant placeholder with status `streaming`, and then calls
`start_background_chat(session_id, user_id, message_history,
assistant_msg.id, model_id)` — five positional arguments against a
four-parameter signature.
-/

/-- Positional parameters of `BackgroundChatService.start_background_chat`
(line 50), `self` excluded; the method has no defaults and no varargs. -/
def start_background_chat_params : List String :=
  ["session_id", "user_id", "message_history", "assistant_message_id"]

/-- Positional arguments of the gateway's call site
(`chat_sqlite.py` lines 398–400). -/
def websocket_start_call_args : List String :=
  ["session_id", "user_id", "message_history", "assistant_msg.id",
   "model_id"]

/-- A Python positional call to a method with no defaults and no varargs
binds exactly when the argument count equals the parameter count;
otherwise the call raises `TypeError` before the body runs. -/
def pyPositionalBindOk (paramCount argCount : Nat) : Bool :=
  argCount == paramCount

inductive PyError where
  | typeError
deriving Repr, DecidableEq

/-- The gateway's handling of one accepted inbound user message
(lines 358–400): persist the user row (`streaming_status` defaults to
`"completed"`), commit the placeholder row with status `"streaming"`,
then attempt the `start_background_chat` call.  When the call does not
bind, the `TypeError` propagates out of the handler and no task is
spawned. -/
def websocketHandleUserMessage (s : SysState) (sid userMid asstMid jid : Nat) :
    SysState × Option PyError :=
  let userRow : ChatMessageRow :=
    { mid := userMid, sid := sid, role := "user",
      streaming_status := "completed" }
  let asstRow : ChatMessageRow :=
    { mid := asstMid, sid := sid, role := "assistant",
      streaming_status := "streaming" }
  let s1 := { s with msgs := s.msgs ++ [userRow] }
  let s2 := { s1 with msgs := s1.msgs ++ [asstRow] }
  if pyPositionalBindOk start_background_chat_params.length
      websocket_start_call_args.length then
    (start_background_chat s2 sid jid asstMid, none)
  else
    (s2, some .typeError)

/-- The empty initial system state. -/
def sysInit : SysState :=
  { msgs := [], running_tasks := [], tasks := [], broadcasts := [] }

/-! ## Concrete traces used by the claims below -/

/-- State after the gateway has handled one inbound message on
conversation 1 (user row 1, placeholder row 2, task id 100 requested). -/
def sysAfterFirstMessage : SysState :=
  (websocketHandleUserMessage sysInit 1 1 2 100).1

/-- State after a second inbound message on the same conversation
(user row 3, placeholder row 4, task id 101 requested). -/
def sysAfterSecondMessage : SysState :=
  (websocketHandleUserMessage sysAfterFirstMessage 1 3 4 101).1

example : countStreaming sysAfterSecondMessage 1 = 2 := by decide
example : (websocketHandleUserMessage sysInit 1 1 2 100).2
    = some PyError.typeError := by decide

/-- A conversation whose first job is already running: placeholder row 1
is `streaming` and `start_background_chat` has stored task 1. -/
def sysJobOneRunning : SysState :=
  start_background_chat
    { sysInit with msgs := [{ mid := 1, sid := 1, role := "assistant",
                              streaming_status := "streaming" }] }
    1 1 1

/-- The gateway then commits the second placeholder (row 2) — the commit
at `chat_sqlite.py` lines 368–376, before `start_background_chat` is
reached. -/
def sysSecondPlaceholder : SysState :=
  { sysJobOneRunning with
    msgs := sysJobOneRunning.msgs ++
      [{ mid := 2, sid := 1, role := "assistant",
         streaming_status := "streaming" }] }

/-- The second job starts (supersede path of `start_background_chat`):
task 1 is cancelled and task 2 stored. -/
def sysSecondJobStarted : SysState :=
  start_background_chat sysSecondPlaceholder 1 2 2

/-- The superseded worker finally observes its cancellation and runs the
`CancelledError` handler and `finally` block. -/
def sysAfterOldWorkerCleanup : SysState :=
  workerCancelCleanup sysSecondJobStarted 1 1 1

example : statusOf sysSecondPlaceholder 1 = some "streaming" := by decide
example : statusOf sysSecondJobStarted 1 = some "streaming" := by decide
example : statusOf sysAfterOldWorkerCleanup 1 = some "interrupted" := by decide
example : lookupTask sysAfterOldWorkerCleanup.running_tasks 1 = none := by decide
example : sysAfterOldWorkerCleanup.tasks.find? (fun t => t.jid == 2)
    = some { jid := 2, sid := 1, msgId := 2,
             cancelled := false, finished := false } := by decide

/-! ## Claims about the gateway/job-manager interaction -/

/-- C10: for every inbound user message accepted by the WebSocket chat
endpoint, the gateway's `start_background_chat` call passes five
positional arguments to a four-parameter method, so it raises `TypeError`
for every such message; no background task is spawned and the freshly
created placeholder row stays in `streaming` status. -/
theorem gateway_start_call_always_raises_typeError
    (s : SysState) (sid userMid asstMid jid : Nat) :
    websocket_start_call_args.length ≠ start_background_chat_params.length
    ∧ (websocketHandleUserMessage s sid userMid asstMid jid).2
        = some PyError.typeError
    ∧ (websocketHandleUserMessage s sid userMid asstMid jid).1.msgs
        = s.msgs ++
          [{ mid := userMid, sid := sid, role := "user",
             streaming_status := "completed" },
           { mid := asstMid, sid := sid, role := "assistant",
             streaming_status := "streaming" }]
    ∧ (websocketHandleUserMessage s sid userMid asstMid jid).1.tasks = s.tasks
    ∧ (websocketHandleUserMessage s sid userMid asstMid jid).1.running_tasks
        = s.running_tasks := by
  refine ⟨by decide, ?_, ?_, ?_, ?_⟩ <;>
    simp [websocketHandleUserMessage, pyPositionalBindOk,
      start_background_chat_params, websocket_start_call_args]

/-- C1: the claimed invariant — at most one persisted message per
conversation in `streaming` status at any instant — is violated by the
code: after the gateway handles two inbound messages on conversation 1,
both assistant placeholders are simultaneously `streaming` (the second
placeholder is committed while the first is still `streaming`, and the
broken `start_background_chat` call means the first is never finalized). -/
theorem two_streaming_messages_after_two_inbound_messages :
    countStreaming sysAfterSecondMessage 1 = 2
    ∧ statusOf sysAfterSecondMessage 2 = some "streaming"
    ∧ statusOf sysAfterSecondMessage 4 = some "streaming" := by
  decide

/-- C2 counterexample: in the supersede trace, at the instant the second
job's placeholder (row 2) enters `streaming` — and still at the instant
the second job has been started — the first job's message (row 1) is not
`interrupted`; it is still `streaming`.  The claimed order "first
finalized as `interrupted` strictly before the second's placeholder
enters `streaming`" is therefore false on this trace. -/
theorem second_placeholder_streams_before_first_finalized :
    statusOf sysSecondPlaceholder 2 = some "streaming"
    ∧ statusOf sysSecondPlaceholder 1 = some "streaming"
    ∧ statusOf sysSecondJobStarted 1 = some "streaming" := by
  decide

/-- C2 amended: when a second job is started on a conversation whose
first job has a `streaming` message, the order is the reverse of the
claimed one — the second's placeholder enters `streaming` first, the
supersede in `start_background_chat` then only sets the first task's
cancellation flag, and the first job's message becomes `interrupted` only
when the cancelled worker later runs its `CancelledError` cleanup. -/
theorem supersede_finalizes_first_only_after_second_streams :
    statusOf sysSecondPlaceholder 2 = some "streaming"
    ∧ statusOf sysSecondPlaceholder 1 = some "streaming"
    ∧ (sysSecondJobStarted.tasks.find? (fun t => t.jid == 1))
        = some { jid := 1, sid := 1, msgId := 1,
                 cancelled := true, finished := false }
    ∧ statusOf sysSecondJobStarted 1 = some "streaming"
    ∧ statusOf sysAfterOldWorkerCleanup 1 = some "interrupted"
    ∧ statusOf sysAfterOldWorkerCleanup 2 = some "streaming" := by
  decide

/-- `running_tasks[sid] = jid` after `start_background_chat` stores the
new task under the session key. -/
theorem lookupTask_setTask (ts : List (Nat × Nat)) (sid jid : Nat) :
    lookupTask (setTask ts sid jid) sid = some jid := by
  simp [lookupTask, setTask]

/-- Removing a session's entry leaves no lookup for that session. -/
theorem lookupTask_removeTask (ts : List (Nat × Nat)) (sid : Nat) :
    lookupTask (removeTask ts sid) sid = none := by
  simp [lookupTask, removeTask]

/-- C9 counterexample and amendment: the ownership record is created at
job start (`running_tasks[session_id] = task`) and removed by
`stop_session_task` or a worker's `finally` block — but that removal does
not check ownership, so a superseded worker's cleanup deletes its
successor's record: in the trace, after the old worker's cleanup the map
has no entry for conversation 1 even though job 2 is still running and
was never superseded or cancelled. -/
theorem ownership_record_deleted_by_superseded_worker :
    (∀ (s : SysState) (sid jid mid : Nat),
      lookupTask (start_background_chat s sid jid mid).running_tasks sid
        = some jid)
    ∧ (∀ (s : SysState) (sid jid mid : Nat),
      lookupTask (workerCancelCleanup s sid jid mid).running_tasks sid = none)
    ∧ lookupTask sysSecondJobStarted.running_tasks 1 = some 2
    ∧ lookupTask sysAfterOldWorkerCleanup.running_tasks 1 = none
    ∧ (sysAfterOldWorkerCleanup.tasks.find? (fun t => t.jid == 2))
        = some { jid := 2, sid := 1, msgId := 2,
                 cancelled := false, finished := false } := by
  refine ⟨?_, ?_, by decide, by decide, by decide⟩
  · intro s sid jid mid
    simpa [start_background_chat] using lookupTask_setTask s.running_tasks sid jid
  · intro s sid jid mid
    simpa [workerCancelCleanup] using lookupTask_removeTask s.running_tasks sid

/-! ## Claim C3: the stop contract -/

/-- Every row found under a given id after `markInterrupted` carries the
`interrupted` status. -/
theorem find?_markInterrupted {msgs : List ChatMessageRow} {mid : Nat}
    {r : ChatMessageRow}
    (h : (markInterrupted msgs mid).find? (fun x => x.mid == mid) = some r) :
    r.streaming_status = "interrupted" := by
  induction msgs with
  | nil => simp [markInterrupted] at h
  | cons m rest ih =>
    by_cases hm : m.mid = mid
    · simp [markInterrupted, List.find?, hm] at h
      simp [← h]
    · simp only [markInterrupted, List.map_cons] at h
      rw [if_neg (by simpa using hm)] at h
      simp only [List.find?] at h
      rw [show (m.mid == mid) = false by simpa using hm] at h
      exact ih (by simpa [markInterrupted] using h)

/-- After `markInterrupted msgs m.mid` for a row `m` of the list, the
lookup of that id reports status `interrupted`. -/
theorem markInterrupted_status_found {msgs : List ChatMessageRow}
    {m : ChatMessageRow} (hm : m ∈ msgs) :
    ((markInterrupted msgs m.mid).find? (fun x => x.mid == m.mid)).map
      (·.streaming_status) = some "interrupted" := by
  have hex : ∃ x ∈ markInterrupted msgs m.mid, (x.mid == m.mid) = true := by
    refine ⟨if m.mid == m.mid then { m with streaming_status := "interrupted" }
            else m, ?_, ?_⟩
    · exact List.mem_map_of_mem _ hm
    · simp
  have hsome := List.find?_isSome.mpr hex
  cases hr : (markInterrupted msgs m.mid).find? (fun x => x.mid == m.mid) with
  | none => simp [hr] at hsome
  | some r => simp [find?_markInterrupted hr]

/-- C3: `stop_session_task(session_id)` returns `true` when a running
task record exists (cancelling that task, removing the record, marking
the conversation's `streaming` message — when one exists — as
`interrupted`, and broadcasting `stopped`); returns `true` when no record
exists but a persisted `streaming` message does (marking it `interrupted`
and broadcasting `stopped`); and returns `false` exactly when neither a
running task nor a `streaming` message exists. -/
theorem stop_session_task_spec (s : SysState) (sid : Nat) :
    ((stop_session_task s sid).2 = false ↔
      lookupTask s.running_tasks sid = none
      ∧ findStreaming s.msgs sid = none)
    ∧ (∀ jid, lookupTask s.running_tasks sid = some jid →
        (stop_session_task s sid).2 = true
        ∧ (stop_session_task s sid).1.tasks = cancelTask s.tasks jid
        ∧ (stop_session_task s sid).1.running_tasks
            = removeTask s.running_tasks sid
        ∧ (stop_session_task s sid).1.broadcasts
            = s.broadcasts ++ [(sid, "stopped")]
        ∧ ∀ m, findStreaming s.msgs sid = some m →
            statusOf (stop_session_task s sid).1 m.mid = some "interrupted")
    ∧ (lookupTask s.running_tasks sid = none →
        ∀ m, findStreaming s.msgs sid = some m →
          (stop_session_task s sid).2 = true
          ∧ statusOf (stop_session_task s sid).1 m.mid = some "interrupted"
          ∧ (stop_session_task s sid).1.broadcasts
              = s.broadcasts ++ [(sid, "stopped")]) := by
  cases hl : lookupTask s.running_tasks sid with
  | some jid =>
    cases hf : findStreaming s.msgs sid with
    | some m =>
      have hm : m ∈ s.msgs := List.mem_of_find?_eq_some hf
      refine ⟨by simp [stop_session_task, hl, hf], ?_, by simp [hl]⟩
      intro jid' hj
      obtain rfl : jid = jid' := by simpa using hj
      refine ⟨by simp [stop_session_task, hl, hf],
        by simp [stop_session_task, hl, hf],
        by simp [stop_session_task, hl, hf],
        by simp [stop_session_task, hl, hf], ?_⟩
      intro m' hm'
      obtain rfl : m = m' := by simpa using hm'
      simp only [stop_session_task, hl, hf, statusOf]
      exact markInterrupted_status_found hm
    | none =>
      refine ⟨by simp [stop_session_task, hl, hf], ?_, by simp [hl]⟩
      intro jid' hj
      obtain rfl : jid = jid' := by simpa using hj
      refine ⟨by simp [stop_session_task, hl, hf],
        by simp [stop_session_task, hl, hf],
        by simp [stop_session_task, hl, hf],
        by simp [stop_session_task, hl, hf], ?_⟩
      intro m' hm'
      exact Option.noConfusion hm'
  | none =>
    cases hf : findStreaming s.msgs sid with
    | some m =>
      have hm : m ∈ s.msgs := List.mem_of_find?_eq_some hf
      refine ⟨by simp [stop_session_task, hl, hf], by simp [hl], ?_⟩
      intro _ m' hm'
      obtain rfl : m = m' := by simpa using hm'
      refine ⟨by simp [stop_session_task, hl, hf], ?_,
        by simp [stop_session_task, hl, hf]⟩
      simp only [stop_session_task, hl, hf, statusOf]
      exact markInterrupted_status_found hm
    | none =>
      refine ⟨by simp [stop_session_task, hl, hf], by simp [hl], ?_⟩
      intro _ m' hm'
      exact Option.noConfusion hm'

/-- A conversation with one `streaming` assistant row and a running
task record, for exercising `stop_session_task`. -/
def sysOneRunning : SysState :=
  { msgs := [{ mid := 1, sid := 1, role := "assistant",
               streaming_status := "streaming" }],
    running_tasks := [(1, 7)],
    tasks := [{ jid := 7, sid := 1, msgId := 1,
                cancelled := false, finished := false }],
    broadcasts := [] }

/-- Witness for C3 at concrete states: `stop` on the empty system returns
`false`; on a conversation with a running task and a `streaming` row it
returns `true` and the row ends `interrupted`. -/
theorem stop_session_task_spec_witness :
    (stop_session_task sysInit 1).2 = false
    ∧ (stop_session_task sysOneRunning 1).2 = true
    ∧ statusOf (stop_session_task sysOneRunning 1).1 1 = some "interrupted" :=
  ⟨(stop_session_task_spec sysInit 1).1.mpr ⟨by decide, by decide⟩,
   ((stop_session_task_spec sysOneRunning 1).2.1 7 (by decide)).1,
   ((stop_session_task_spec sysOneRunning 1).2.1 7 (by decide)).2.2.2.2
     { mid := 1, sid := 1, role := "assistant",
       streaming_status := "streaming" } (by decide)⟩

/-! ## Claim C8: the deepseek-reasoner payload -/

/-- C8 counterexample: with a `deepseek-reasoner` configuration that
supplies no `max_tokens` (and no override, as in `chat_stream`'s call
`self._build_payload(config, messages, stream=True)`), the payload
carries no `max_tokens` key at all — no 8192 cap is applied, contrary to
the claim that the budget is always capped. -/
theorem deepseek_payload_uncapped_without_supplied_budget :
    (build_payload { model := "deepseek-reasoner" } [] true none).max_tokens
      = none := by decide

/-- C8 amended: for every configuration whose model name contains
`deepseek-reasoner`, the payload omits `temperature`, `top_p`,
`frequency_penalty` and `presence_penalty`; whenever a token budget is
supplied — a truthy `max_tokens_override`, else a configured
`max_tokens` — the payload's `max_tokens` is `min(supplied, 8192)`;
when neither supplies one, the payload has no `max_tokens` key. -/
theorem deepseek_payload_omits_sampling_and_caps_when_supplied
    (config : ProviderConfig) (messages : List (String × String))
    (stream : Bool) (ov : Option Nat)
    (h : isDeepseekReasoner config.model = true) :
    (build_payload config messages stream ov).temperature = none
    ∧ (build_payload config messages stream ov).top_p = none
    ∧ (build_payload config messages stream ov).frequency_penalty = none
    ∧ (build_payload config messages stream ov).presence_penalty = none
    ∧ (∀ w, ov = some w → w ≠ 0 →
        (build_payload config messages stream ov).max_tokens
          = some (min w 8192))
    ∧ (pyTruthyNat ov = false → ∀ u, config.max_tokens = some u →
        (build_payload config messages stream ov).max_tokens
          = some (min u 8192))
    ∧ (pyTruthyNat ov = false → config.max_tokens = none →
        (build_payload config messages stream ov).max_tokens = none)
    ∧ (∀ v, (build_payload config messages stream ov).max_tokens = some v →
        v ≤ 8192) := by
  unfold build_payload
  rw [if_pos h]
  refine ⟨rfl, rfl, rfl, rfl, ?_, ?_, ?_, ?_⟩
  · rintro w rfl hw
    simp [pyTruthyNat, hw]
  · intro hov u hu
    simp [hov, hu]
  · intro hov hu
    simp [hov, hu]
  · intro v hv
    by_cases hov : pyTruthyNat ov = true
    · simp only [hov, if_true, Option.some.injEq] at hv
      omega
    · simp only [Bool.not_eq_true] at hov
      simp only [hov, Bool.false_eq_true, if_false] at hv
      cases hc : config.max_tokens with
      | none => simp [hc] at hv
      | some u =>
        simp only [hc, Option.some.injEq] at hv
        omega

/-- Witness for C8 at a concrete configuration: sampling fields filled in
the config are all dropped and a configured budget of 9000 is capped. -/
theorem deepseek_payload_witness :
    (build_payload
      { model := "x-deepseek-reasoner-v1", temperature := some 1,
        max_tokens := some 9000, top_p := some 1,
        frequency_penalty := some 1, presence_penalty := some 1 }
      [] true none).temperature = none
    ∧ (build_payload
      { model := "x-deepseek-reasoner-v1", temperature := some 1,
        max_tokens := some 9000, top_p := some 1,
        frequency_penalty := some 1, presence_penalty := some 1 }
      [] true none).max_tokens = some (min 9000 8192) :=
  ⟨(deepseek_payload_omits_sampling_and_caps_when_supplied
      { model := "x-deepseek-reasoner-v1", temperature := some 1,
        max_tokens := some 9000, top_p := some 1,
        frequency_penalty := some 1, presence_penalty := some 1 }
      [] true none (by decide)).1,
   (deepseek_payload_omits_sampling_and_caps_when_supplied
      { model := "x-deepseek-reasoner-v1", temperature := some 1,
        max_tokens := some 9000, top_p := some 1,
        frequency_penalty := some 1, presence_penalty := some 1 }
      [] true none (by decide)).2.2.2.2.2.1 (by decide) 9000 (by decide)⟩

/-! ## Claim C6: inline tag extraction in `chat_stream` -/

/-- C6 counterexample: the chunk text `"<think></think>"` contains an
inline tag pair, yet `chat_stream` emits no event for it at all — after
extraction both channels are empty, so the
`if content or chunk_thinking:` guard suppresses the event instead of
emitting content `""` with thinking `""`. -/
theorem empty_tag_pair_chunk_is_suppressed :
    extractThink "<think></think>".data = some ([], [], [])
    ∧ processDelta "<think></think>".data [] = none := by decide

/-- C6 amended: for a chunk whose text contains an inline `<think>` tag
pair, *provided the stripped content or the extracted thinking is
nonempty*, `chat_stream` emits an event whose thinking is the text
between the tags and whose content is the original text with the tagged
span removed (regardless of any `reasoning_content`, which the tag
overrides); a chunk with no tag pair, no `reasoning_content` and
nonempty content passes through unchanged with thinking absent; a chunk
whose channels are both empty after extraction is suppressed. -/
theorem inline_tag_extraction_spec :
    (∀ (d r pre inner post : List Char),
      extractThink d = some (pre, inner, post) →
      extractThink post = none →
      (pre ++ post ≠ [] ∨ inner ≠ []) →
      d = pre ++ openTag ++ inner ++ closeTag ++ post
      ∧ processDelta d r = some (pre ++ post, some inner))
    ∧ (∀ d : List Char, extractThink d = none → d ≠ [] →
        processDelta d [] = some (d, none)) := by
  constructor
  · intro d r pre inner post h1 h2 h3
    have hd := extractThink_sound h1
    refine ⟨hd, ?_⟩
    have hdne : d.isEmpty = false := by
      rw [hd]
      simp [openTag]
    have hrt : removeThink d = pre ++ post := by
      rw [removeThink_step h1, removeThinkFuel_of_none h2]
    have hguard : (!(pre ++ post).isEmpty
        || pyTruthyStr (some inner)) = true := by
      rcases h3 with h3 | h3
      · simp [List.isEmpty_iff, h3]
      · simp [pyTruthyStr, List.isEmpty_iff, h3]
    simp only [processDelta, hdne, Bool.false_eq_true, if_false, h1, hrt]
    simp only [hguard, if_true]
  · intro d h1 h2
    have hdne : d.isEmpty = false := by simp [List.isEmpty_iff, h2]
    simp [processDelta, hdne, h1, pyTruthyStr, List.isEmpty_iff, h2]

/-- Witness for C6 at the spec's own example: `"A<think>B</think>C"`
yields content `"AC"` and thinking `"B"`; `"AC"` passes through. -/
theorem inline_tag_extraction_witness :
    processDelta "A<think>B</think>C".data "r".data
      = some ("AC".data, some "B".data)
    ∧ processDelta "AC".data [] = some ("AC".data, none) :=
  ⟨by
    have h := inline_tag_extraction_spec.1 "A<think>B</think>C".data "r".data
      "A".data "B".data "C".data (by decide) (by decide)
      (Or.inl (by decide))
    exact h.2,
   inline_tag_extraction_spec.2 "AC".data (by decide) (by decide)⟩

/-! ## Claim C4: persisted answer text grows monotonically -/

/-- Worker invariant: the committed content values form a prefix chain,
the last committed value is the currently persisted content, and the
persisted content is a prefix of the in-memory accumulator. -/
def WorkerInv (s : WorkerState) : Prop :=
  s.hist.Chain' (· <+: ·)
  ∧ s.hist.getLast? = some s.pContent
  ∧ s.pContent <+: s.acc

theorem workerInv_init (se : Bool) (mc ua : Nat) :
    WorkerInv (initWorker se mc ua) := by
  refine ⟨?_, rfl, List.nil_prefix⟩
  simp [initWorker]

/-- Appending a value extending the last element preserves the chain. -/
theorem chain_push {hist : List (List Char)} {p x : List Char}
    (hc : hist.Chain' (· <+: ·)) (hl : hist.getLast? = some p)
    (hpx : p <+: x) :
    (hist ++ [x]).Chain' (· <+: ·) ∧ (hist ++ [x]).getLast? = some x := by
  refine ⟨List.chain'_append.mpr ⟨hc, List.chain'_singleton x, ?_⟩,
    List.getLast?_concat hist⟩
  intro a ha y hy
  simp only [List.head?_cons, Option.mem_def, Option.some.injEq] at hy
  rw [hl] at ha
  simp only [Option.mem_def, Option.some.injEq] at ha
  subst ha
  subst hy
  exact hpx

theorem workerInv_step (now : Nat) (s : WorkerState) (ch : WorkerChunk)
    (h : WorkerInv s) : WorkerInv (workerStep now s ch).1 := by
  obtain ⟨hc, hl, hp⟩ := h
  cases ch with
  | content c t ok1 ok2 =>
    have hacc : s.pContent <+: s.acc ++ c := hp.trans (List.prefix_append _ _)
    have hpush := chain_push hc hl hacc
    cases ok1 with
    | true =>
      exact ⟨hpush.1, hpush.2, List.prefix_refl _⟩
    | false =>
      cases ok2 with
      | true => exact ⟨hpush.1, hpush.2, List.prefix_refl _⟩
      | false => exact ⟨hc, hl, hacc⟩
  | errorChunk =>
    have hpush := chain_push hc hl (List.prefix_refl s.pContent)
    exact ⟨hpush.1, hpush.2, hp⟩
  | doneChunk =>
    have hpush := chain_push hc hl hp
    exact ⟨hpush.1, hpush.2, List.prefix_refl _⟩
  | cancelSignal =>
    have hpush := chain_push hc hl hp
    exact ⟨hpush.1, hpush.2, List.prefix_refl _⟩
  | exnSignal =>
    have hpush := chain_push hc hl hp
    exact ⟨hpush.1, hpush.2, List.prefix_refl _⟩

theorem workerInv_run (now : Nat) :
    ∀ (chunks : List WorkerChunk) (s : WorkerState),
    WorkerInv s → WorkerInv (runWorker now s chunks).1 := by
  intro chunks
  induction chunks with
  | nil => intro s hs; exact hs
  | cons ch rest ih =>
    intro s hs
    have hstep := workerInv_step now s ch hs
    cases hW : workerStep now s ch with
    | mk s' halt =>
      rw [hW] at hstep
      cases halt with
      | true => simpa [runWorker, hW] using hstep
      | false =>
        have := ih s' hstep
        simpa [runWorker, hW] using this

/-- Along a prefix chain, the head is a prefix of every element. -/
theorem chain_head_prefix :
    ∀ (j : Nat) (x : List Char) (xs : List (List Char)),
    (x :: xs).Chain' (· <+: ·) →
    ∀ b, (x :: xs).get? j = some b → x <+: b := by
  intro j
  induction j with
  | zero =>
    intro x xs _ b hb
    simp only [List.get?] at hb
    obtain rfl : x = b := by simpa using hb
    exact List.prefix_refl x
  | succ n ih =>
    intro x xs hchain b hb
    simp only [List.get?] at hb
    cases xs with
    | nil => simp [List.get?] at hb
    | cons y ys =>
      rw [List.chain'_cons] at hchain
      exact hchain.1.trans (ih y ys hchain.2 b hb)

/-- Along a prefix chain, earlier elements are prefixes of later ones. -/
theorem chain_get?_prefix :
    ∀ (l : List (List Char)), l.Chain' (· <+: ·) →
    ∀ (i j : Nat) (a b : List Char), i ≤ j →
    l.get? i = some a → l.get? j = some b → a <+: b := by
  intro l
  induction l with
  | nil => intro _ i j a b _ ha; simp [List.get?] at ha
  | cons x xs ih =>
    intro hchain i j a b hij ha hb
    cases i with
    | zero =>
      obtain rfl : x = a := by simpa [List.get?] using ha
      exact chain_head_prefix j x xs hchain b hb
    | succ i' =>
      cases j with
      | zero => omega
      | succ j' =>
        simp only [List.get?] at ha hb
        cases xs with
        | nil => simp [List.get?] at ha
        | cons y ys =>
          have hct : (y :: ys).Chain' (· <+: ·) :=
            (List.chain'_cons.mp hchain).2
          exact ih hct i' j' a b (by omega) ha hb

/-- C4: within one job, the persisted assistant content is non-decreasing
— every committed content value is a prefix of every later committed
value, over any chunk stream, including failing commits, the retry path,
the error path, cancellation and the done path. -/
theorem persisted_content_prefix_monotone
    (now : Nat) (se : Bool) (mc ua : Nat) (chunks : List WorkerChunk)
    (i j : Nat) (hij : i ≤ j) (a b : List Char)
    (ha : (runWorker now (initWorker se mc ua) chunks).1.hist.get? i = some a)
    (hb : (runWorker now (initWorker se mc ua) chunks).1.hist.get? j = some b) :
    a <+: b := by
  have hinv := workerInv_run now chunks _ (workerInv_init se mc ua)
  exact chain_get?_prefix _ hinv.1 i j a b hij ha hb

/-- A chunk stream exercising the success, double-failure, retry-success
and done paths of the worker. -/
def demoChunks : List WorkerChunk :=
  [WorkerChunk.content "He".data [] true true,
   WorkerChunk.content "llo".data [] false false,
   WorkerChunk.content " there".data [] false true,
   WorkerChunk.doneChunk]

/-- Witness for C4 on `demoChunks`: commits 1 and 2 of the run are
`"He"` and `"Hello there"`, and the former is a prefix of the latter. -/
theorem persisted_content_prefix_monotone_witness :
    (runWorker 9 (initWorker true 0 0) demoChunks).1.hist.get? 1
      = some "He".data
    ∧ (runWorker 9 (initWorker true 0 0) demoChunks).1.hist.get? 2
      = some "Hello there".data
    ∧ "He".data <+: "Hello there".data :=
  ⟨by decide, by decide,
   persisted_content_prefix_monotone 9 true 0 0 demoChunks 1 2 (by decide)
     "He".data "Hello there".data (by decide) (by decide)⟩

/-! ## Claim C5: the done path -/

/-- Content chunks are the non-terminal loop iterations. -/
def isContentChunk : WorkerChunk → Bool
  | .content _ _ _ _ => true
  | _ => false

/-- Concatenation of the content deltas of a chunk list, in order. -/
def contentConcat (l : List WorkerChunk) : List Char :=
  (l.map fun ch => match ch with | .content c _ _ _ => c | _ => []).flatten

/-- Concatenation of the thinking deltas of a chunk list, in order. -/
def thinkingConcat (l : List WorkerChunk) : List Char :=
  (l.map fun ch => match ch with | .content _ t _ _ => t | _ => []).flatten

/-- Running the worker over a prefix of content chunks reaches the
remaining stream with the accumulators extended by the concatenated
deltas, one `content` broadcast per chunk, and the session fields and
status untouched; the persisted row fields vary with the commit flags. -/
theorem runWorker_content_prefix (now : Nat) :
    ∀ (pre rest : List WorkerChunk) (s : WorkerState),
    (∀ ch ∈ pre, isContentChunk ch = true) →
    ∃ pc pt h,
      runWorker now s (pre ++ rest)
        = runWorker now
            { s with acc := s.acc ++ contentConcat pre,
                     accT := s.accT ++ thinkingConcat pre,
                     pContent := pc, pThinking := pt, hist := h,
                     broadcasts := s.broadcasts
                       ++ List.replicate pre.length "content" } rest := by
  intro pre
  induction pre with
  | nil =>
    intro rest s _
    refine ⟨s.pContent, s.pThinking, s.hist, ?_⟩
    simp [contentConcat, thinkingConcat]
  | cons ch pre' ih =>
    intro rest s hall
    have hch : isContentChunk ch = true := hall ch (List.mem_cons_self ch pre')
    cases ch with
    | errorChunk => simp [isContentChunk] at hch
    | doneChunk => simp [isContentChunk] at hch
    | cancelSignal => simp [isContentChunk] at hch
    | exnSignal => simp [isContentChunk] at hch
    | content c t ok1 ok2 =>
      have hall' : ∀ x ∈ pre', isContentChunk x = true :=
        fun x hx => hall x (List.mem_cons_of_mem _ hx)
      set s1 := (workerStep now s (.content c t ok1 ok2)).1 with hs1
      have hrun : runWorker now s ((WorkerChunk.content c t ok1 ok2 :: pre')
          ++ rest) = runWorker now s1 (pre' ++ rest) := by
        cases ok1 <;> cases ok2 <;> simp [runWorker, workerStep, hs1]
      obtain ⟨pc, pt, h, heq⟩ := ih rest s1 hall'
      refine ⟨pc, pt, h, ?_⟩
      rw [hrun, heq]
      congr 1
      have hAcc : s1.acc = s.acc ++ c := by
        cases ok1 <;> cases ok2 <;> simp [hs1, workerStep]
      have hAccT : s1.accT = s.accT ++ t := by
        cases ok1 <;> cases ok2 <;>
          by_cases ht : t.isEmpty <;>
            simp_all [workerStep, List.isEmpty_iff]
      have hB : s1.broadcasts = s.broadcasts ++ ["content"] := by
        cases ok1 <;> cases ok2 <;> simp [hs1, workerStep]
      have hSE : s1.sessionExists = s.sessionExists := by
        cases ok1 <;> cases ok2 <;> simp [hs1, workerStep]
      have hMC : s1.messageCount = s.messageCount := by
        cases ok1 <;> cases ok2 <;> simp [hs1, workerStep]
      have hUA : s1.updatedAt = s.updatedAt := by
        cases ok1 <;> cases ok2 <;> simp [hs1, workerStep]
      have hST : s1.pStatus = s.pStatus := by
        cases ok1 <;> cases ok2 <;> simp [hs1, workerStep]
      simp [WorkerState.ext_iff, hAcc, hAccT, hB, hSE, hMC, hUA, hST,
        contentConcat, thinkingConcat, List.replicate_succ]

/-- C5: when the stream yields its `done` event (after any run of
content chunks), the worker finalizes the assistant message as
`completed` with the full accumulated content and thinking, adds exactly
2 to the owning session's `message_count`, refreshes `updated_at`,
broadcasts `done`, and consumes no further chunk of the stream. -/
theorem done_event_finalization
    (now mc ua : Nat) (pre post : List WorkerChunk)
    (hpre : ∀ ch ∈ pre, isContentChunk ch = true) :
    (runWorker now (initWorker true mc ua)
      (pre ++ WorkerChunk.doneChunk :: post)).1.pStatus = "completed"
    ∧ (runWorker now (initWorker true mc ua)
      (pre ++ WorkerChunk.doneChunk :: post)).1.pContent = contentConcat pre
    ∧ (runWorker now (initWorker true mc ua)
      (pre ++ WorkerChunk.doneChunk :: post)).1.pThinking
        = finalThinking (thinkingConcat pre)
    ∧ (runWorker now (initWorker true mc ua)
      (pre ++ WorkerChunk.doneChunk :: post)).1.messageCount = mc + 2
    ∧ (runWorker now (initWorker true mc ua)
      (pre ++ WorkerChunk.doneChunk :: post)).1.updatedAt = now
    ∧ (runWorker now (initWorker true mc ua)
      (pre ++ WorkerChunk.doneChunk :: post)).1.broadcasts
        = List.replicate pre.length "content" ++ ["done"]
    ∧ (runWorker now (initWorker true mc ua)
      (pre ++ WorkerChunk.doneChunk :: post)).2 = post := by
  obtain ⟨pc, pt, h, heq⟩ :=
    runWorker_content_prefix now pre (WorkerChunk.doneChunk :: post)
      (initWorker true mc ua) hpre
  rw [heq]
  simp [runWorker, workerStep, initWorker]

/-- A run of two content chunks used as the C5 witness. -/
def demoPre : List WorkerChunk :=
  [WorkerChunk.content "He".data "th".data true true,
   WorkerChunk.content "llo".data [] true true]

/-- Witness for C5: on the concrete stream `demoPre ++ done :: [error]`,
the worker completes with content `"Hello"`, thinking `"th"`, message
count 4 + 2, a final `done` broadcast, and leaves the trailing error
chunk unconsumed. -/
theorem done_event_finalization_witness :
    (∀ ch ∈ demoPre, isContentChunk ch = true)
    ∧ (runWorker 5 (initWorker true 4 0)
        (demoPre ++ WorkerChunk.doneChunk :: [WorkerChunk.errorChunk])).1.pStatus
        = "completed"
    ∧ (runWorker 5 (initWorker true 4 0)
        (demoPre ++ WorkerChunk.doneChunk :: [WorkerChunk.errorChunk])).1.messageCount
        = 4 + 2
    ∧ (runWorker 5 (initWorker true 4 0)
        (demoPre ++ WorkerChunk.doneChunk :: [WorkerChunk.errorChunk])).2
        = [WorkerChunk.errorChunk] :=
  ⟨by decide,
   (done_event_finalization 5 4 0 demoPre [WorkerChunk.errorChunk]
      (by decide)).1,
   (done_event_finalization 5 4 0 demoPre [WorkerChunk.errorChunk]
      (by decide)).2.2.2.1,
   (done_event_finalization 5 4 0 demoPre [WorkerChunk.errorChunk]
      (by decide)).2.2.2.2.2.2⟩

/-! ## Claim C7: the per-delta commit retry -/

/-- C7 counterexample: a delta whose commit fails and whose retry also
fails is *not* fatal to the job — the worker logs, keeps going, consumes
the next event and even finishes `completed`; the message is never
finalized as `interrupted` on account of the failed append. -/
theorem failed_retry_is_not_fatal :
    (runWorker 0 (initWorker true 0 0)
      [WorkerChunk.content "ab".data [] false false,
       WorkerChunk.doneChunk]).1.pStatus = "completed"
    ∧ (runWorker 0 (initWorker true 0 0)
      [WorkerChunk.content "ab".data [] false false,
       WorkerChunk.doneChunk]).2 = []
    ∧ (runWorker 0 (initWorker true 0 0)
      [WorkerChunk.content "ab".data [] false false,
       WorkerChunk.doneChunk]).1.hist = [[], "ab".data] := by
  decide

/-- C7 amended: a failed per-delta commit is retried exactly once
against the rolled-back, refreshed handle; a successful retry persists
the full accumulated text.  When the retry also fails, that delta's
persistence is skipped — the status is unchanged, the loop continues
(not fatal), the accumulator still grows — and the next successful
commit persists the accumulated text including the skipped delta. -/
theorem append_retry_once_then_skip (now : Nat) (s : WorkerState)
    (c t : List Char) :
    ((workerStep now s (.content c t false true)).1.hist
        = s.hist ++ [s.acc ++ c])
    ∧ ((workerStep now s (.content c t false true)).1.pContent = s.acc ++ c)
    ∧ ((workerStep now s (.content c t false false)).1.hist = s.hist)
    ∧ ((workerStep now s (.content c t false false)).1.pContent = s.pContent)
    ∧ ((workerStep now s (.content c t false false)).1.pStatus = s.pStatus)
    ∧ ((workerStep now s (.content c t false false)).2 = false)
    ∧ ((workerStep now s (.content c t false false)).1.acc = s.acc ++ c)
    ∧ (∀ c2 t2,
        (workerStep now (workerStep now s (.content c t false false)).1
          (.content c2 t2 true true)).1.pContent = s.acc ++ c ++ c2) := by
  refine ⟨?_, ?_, ?_, ?_, ?_, ?_, ?_, ?_⟩ <;> simp [workerStep]

/-- C9 counterexample at a concrete trace: job 2 is running and was
never cancelled or superseded, yet `running_tasks` holds no record for
its conversation — the superseded worker's `finally` block deleted job
2's record when it ran after the supersede. -/
theorem running_job_with_no_ownership_record :
    lookupTask sysSecondJobStarted.running_tasks 1 = some 2
    ∧ (sysAfterOldWorkerCleanup.tasks.find? (fun t => t.jid == 2))
        = some { jid := 2, sid := 1, msgId := 2,
                 cancelled := false, finished := false }
    ∧ lookupTask sysAfterOldWorkerCleanup.running_tasks 1 = none := by
  decide
